import Mathlib

/-!
# Windo task reminder: shallow embedding and verification

This file embeds the due-task scanner of `src/App.tsx` (the per-second timer
effect) and the alert player of `src/services/audioService.ts` as executable
Lean definitions, and proves the specified properties about them.

Conventions:
* JavaScript strings are Lean `String`s; the scanner's date/time comparison is
  string equality, exactly as in the source (`task.date === currentDate`).
* `notified?: boolean` (an optional field) is `Option Bool`; the source's
  truthiness test `!task.notified` is `!(t.notified.getD false)`.
* The wall clock observed on a tick is a `Clock` record; the source formats it
  with `getFullYear()`, `getMonth()+1`/`getDate()` padded to two digits, and
  `toLocaleTimeString('en-GB', {hour:'2-digit', minute:'2-digit'})`, which
  yields zero-padded 24-hour `HH:mm`.
* The decimal rendering of a JavaScript number (`String(n)`) is `natStr`,
  a fuel-based digit accumulator equivalent to the standard decimal
  representation.
-/

namespace Windo

/-- Fuel-based accumulator producing the decimal digits of `n` in front of
`acc`; with fuel larger than `n` this is the standard decimal rendering. -/
def decCharsCore : Nat → Nat → List Char → List Char
  | 0, _, acc => acc
  | f + 1, n, acc =>
    if n < 10 then Nat.digitChar n :: acc
    else decCharsCore f (n / 10) (Nat.digitChar (n % 10) :: acc)

/-- Decimal rendering of a JavaScript number: `String(n)` for a natural. -/
def natStr (n : Nat) : String :=
  ⟨decCharsCore (n + 1) n []⟩

/-- Recursive (proof-side) description of the decimal digit list of `n`. -/
def decList (n : Nat) : List Char :=
  if n < 10 then [Nat.digitChar n]
  else decList (n / 10) ++ [Nat.digitChar (n % 10)]
termination_by n
decreasing_by exact Nat.div_lt_self (by omega) (by omega)

/-- `String(n).padStart(2, '0')` from `src/App.tsx` (date helper) — the
two-digit zero padding used for month, day, hour and minute. -/
def pad2 (n : Nat) : String :=
  if n < 10 then "0" ++ natStr n else natStr n

/-- One observed wall-clock instant, truncated to the minute (the scanner
never reads seconds into the comparison strings). `month` is already the
1-based month (`getMonth() + 1`). -/
structure Clock where
  year : Nat
  month : Nat
  day : Nat
  hour : Nat
  minute : Nat
deriving DecidableEq, Repr

/-- `currentDate` computed at the top of each tick (src/App.tsx line 135):
`YYYY-MM-DD`. -/
def currentDateStr (c : Clock) : String :=
  natStr c.year ++ "-" ++ pad2 c.month ++ "-" ++ pad2 c.day

/-- `currentTime` computed at the top of each tick (src/App.tsx line 137):
`HH:mm`, zero-padded 24-hour clock. -/
def currentTimeStr (c : Clock) : String :=
  pad2 c.hour ++ ":" ++ pad2 c.minute

/-- A clock instant the system clock can actually produce (four-digit year,
valid month/day/hour/minute ranges). -/
def ValidClock (c : Clock) : Prop :=
  1000 ≤ c.year ∧ c.year ≤ 9999 ∧ 1 ≤ c.month ∧ c.month ≤ 12 ∧
  1 ≤ c.day ∧ c.day ≤ 31 ∧ c.hour ≤ 23 ∧ c.minute ≤ 59

instance (c : Clock) : Decidable (ValidClock c) := by
  unfold ValidClock; infer_instance

/-- Task priority (src/types.ts). -/
inductive Priority where
  | high
  | medium
  | low
deriving DecidableEq, Repr

/-- A task record (src/types.ts `Task`, plus the `createdAt` field the app's
migration step guarantees). `notified` is optional in the source
(`notified?: boolean`). -/
structure Task where
  id : String
  title : String
  time : String
  date : String
  priority : Priority
  completed : Bool
  notified : Option Bool
  createdAt : Nat
deriving DecidableEq, Repr

/-- Sound mode (src/types.ts `SoundMode`). -/
inductive SoundMode where
  | bell
  | tts
  | custom
deriving DecidableEq, Repr

/-- The settings fields the scanner and the audio service control logic read
(src/types.ts `AppSettings`; `theme`, `customSoundName`, `volume` and
`voiceURI` only shape presentation / the raw audio signal, not the control
state modelled here). `customSoundData` is the optional base64 payload. -/
structure AppSettings where
  autoComplete : Bool
  soundMode : SoundMode
  audioDuration : Int
  audioLoop : Bool
  customSoundData : Option String
deriving DecidableEq, Repr

/-- The scanner's match condition (src/App.tsx line 143):
`!task.completed && !task.notified && task.date === currentDate &&
task.time === currentTime`. -/
def dueMatch (t : Task) (c : Clock) : Bool :=
  !t.completed && !(t.notified.getD false) &&
    t.date == currentDateStr c && t.time == currentTimeStr c

/-- The per-task body of the tick's `map` (src/App.tsx lines 141-161): a
matched task gets `notified := true` and, when `autoComplete` is set,
`completed := true`; any other task is returned unchanged. -/
def tickTask (s : AppSettings) (c : Clock) (t : Task) : Task :=
  if dueMatch t c then
    { t with notified := some true,
             completed := if s.autoComplete then true else t.completed }
  else t

/-- The whole `setTasks` updater of one tick (src/App.tsx lines 139-164):
map every task through `tickTask`; if no task matched (`hasChanges` stayed
false) return the original collection itself. -/
def scanTick (s : AppSettings) (c : Clock) (tasks : List Task) : List Task :=
  let updatedTasks := tasks.map (tickTask s c)
  if tasks.any (fun t => dueMatch t c) then updatedTasks else tasks

/-- Run a sequence of ticks over a single task, counting how many of them
fire the alert for it (a tick fires for the task exactly when the match
condition holds, src/App.tsx lines 143-152). -/
def runTicksCount (s : AppSettings) (t : Task) : List Clock → Task × Nat
  | [] => (t, 0)
  | c :: cs =>
    let fired := dueMatch t c
    let rest := runTicksCount s (tickTask s c t) cs
    (rest.1, (if fired then 1 else 0) + rest.2)

/-! ### Well-formedness of date/time strings

The spec's notion of a malformed task field is one that fails to parse as
`YYYY-MM-DD` / `HH:mm`.  `isDateShape` / `isTimeShape` are the corresponding
shape parsers: four digits, dash, two digits, dash, two digits, and two
digits, colon, two digits. -/

/-- Parse check for `YYYY-MM-DD`. -/
def isDateShape (s : String) : Bool :=
  match s.data with
  | [y1, y2, y3, y4, s1, m1, m2, s2, d1, d2] =>
    y1.isDigit && y2.isDigit && y3.isDigit && y4.isDigit && (s1 == '-') &&
      m1.isDigit && m2.isDigit && (s2 == '-') && d1.isDigit && d2.isDigit
  | _ => false

/-- Parse check for `HH:mm`. -/
def isTimeShape (s : String) : Bool :=
  match s.data with
  | [h1, h2, s1, m1, m2] =>
    h1.isDigit && h2.isDigit && (s1 == ':') && m1.isDigit && m2.isDigit
  | _ => false

/-! ### The audio service (src/services/audioService.ts)

The `AudioService` class is a single-threaded but asynchronous, event-driven
object.  Its mutable fields become the `AudioState` record; its public
operations and the callbacks the platform can deliver (timer expiry,
utterance completion, decode resolution) become the `AudioEvent` alphabet of
a step function.  Registered `onEnd` callbacks are identified by numeric
tokens; the ghost field `invoked` logs every invocation of a registered
callback, so at-most-once properties are statements about that log.

Abstraction notes, matching the source:
* `currentSource` holds the handle assigned at lines 41/124 (an oscillator or
  a buffer source); a buffer source has no `onended` handler in the source,
  so no natural-completion event exists for it here either.
* Every `this.currentSource = x` assignment goes through `assignSource`,
  which additionally maintains the ghost counter `orphaned`: a buffer source
  displaced from `currentSource` without having been stopped keeps playing
  (until its sample ends, or forever when looping) and no later `stop()` can
  reach it.  A displaced oscillator is not counted: the bell tone stops
  itself 0.6 s after `osc.stop(ctx.currentTime + 0.6)` (line 39).
* `loopInterval` holds the pending bell `setInterval` (line 217) or the
  pending tts chain `setTimeout` (line 196); `none` means no pending timer
  (`clearInterval` on an already-fired timeout id is a no-op, so a stale
  stored id is behaviourally identical to `none`).
* `speaking` records whether speech synthesis is currently speaking and which
  completion callback was attached to the utterance: the chained re-speak
  closure of the loop branch (line 194) or the natural-end closure of the
  single branch (line 201).
* `playNotification` is `async`.  Its control logic up to the first real
  suspension runs synchronously; the one suspension with observable
  consequences is the `await fetch` / `await decodeAudioData` inside
  `playCustom` on a cache miss (lines 107-109).  That split is explicit
  here: a cache-miss custom play enqueues an entry in `pendingDecodes`
  (the in-flight decodes, each remembering its call's `audioLoop` flag),
  and the separate event `decodeDone i ok` runs the continuation (lines
  109-125 on success, the catch block on failure).  `stop()` cannot cancel
  an in-flight decode, so `stopFn` leaves `pendingDecodes` untouched.
  The `await this.audioContext.resume()` at line 177 suspends only while the
  context is in the `suspended` state; the context is modelled as running,
  so that await is a no-op here. -/

/-- The kind of Web Audio node stored in `currentSource`; a buffer source
remembers the `source.loop` flag it was configured with (line 117). -/
inductive SourceKind where
  | osc
  | buffer (loop : Bool)
deriving DecidableEq, Repr

/-- Which pending timer `loopInterval` holds. -/
inductive LoopKind where
  | bellInterval
  | ttsChainTimeout
deriving DecidableEq, Repr

/-- Which completion closure is attached to the in-flight utterance. -/
inductive SpeechKind where
  | chain
  | single
deriving DecidableEq, Repr

/-- The mutable fields of the `AudioService` class (lines 4-13), the
in-flight decode continuations, and the two ghost fields (`orphaned`,
`invoked`). -/
structure AudioState where
  currentSource : Option SourceKind
  stopTimeout : Bool
  loopInterval : Option LoopKind
  onPlaybackEnd : Option Nat
  customAudioBuffer : Bool
  speaking : Option SpeechKind
  pendingDecodes : List Bool
  orphaned : Nat
  invoked : List Nat
deriving DecidableEq, Repr

/-- The state of a freshly constructed service: every handle null. -/
def initAudioState : AudioState :=
  { currentSource := none, stopTimeout := false, loopInterval := none,
    onPlaybackEnd := none, customAudioBuffer := false, speaking := none,
    pendingDecodes := [], orphaned := 0, invoked := [] }

/-- `stop()` (lines 137-168): halt the current source, cancel speech, clear
both timers, then invoke and clear the registered callback.  It cannot cancel
an in-flight decode (`pendingDecodes` stays) and cannot reach a source no
longer referenced by `currentSource` (`orphaned` stays). -/
def stopFn (s : AudioState) : AudioState :=
  { s with currentSource := none,
           speaking := none,
           stopTimeout := false,
           loopInterval := none,
           onPlaybackEnd := none,
           invoked := match s.onPlaybackEnd with
                      | some k => s.invoked ++ [k]
                      | none => s.invoked }

/-- How many playing buffer sources an assignment to `currentSource` would
displace (one when a buffer source is currently referenced, else zero). -/
def displacing (s : AudioState) : Nat :=
  match s.currentSource with
  | some (SourceKind.buffer _) => 1
  | _ => 0

/-- Assignment `this.currentSource = x` (lines 41 and 124), with ghost orphan
accounting: a displaced, un-stopped buffer source keeps playing outside the
service's reach. -/
def assignSource (k : SourceKind) (s : AudioState) : AudioState :=
  { s with currentSource := some k,
           orphaned := s.orphaned + displacing s }

/-- `playBellSound` (lines 23-43): start a short oscillator tone and store
its handle. -/
def playBellSound (s : AudioState) : AudioState :=
  assignSource SourceKind.osc s

/-- `speakText` (lines 76-100): cancel any existing speech and speak the
phrase with the given completion closure attached. -/
def speakText (kind : SpeechKind) (s : AudioState) : AudioState :=
  { s with speaking := some kind }

/-- JavaScript truthiness of the optional payload string: non-null and
non-empty (the dispatch at line 207 tests `customSoundData`, not just its
presence). -/
def strTruthy : Option String → Bool
  | none => false
  | some d => !d.isEmpty

/-- The synchronous prefix of `playCustom` (lines 102-107): with a cached
buffer the source starts immediately (no await runs); on a cache miss the
call suspends at `await fetch` and an in-flight decode is recorded. -/
def playCustom (loop : Bool) (s : AudioState) : AudioState :=
  if s.customAudioBuffer then assignSource (SourceKind.buffer loop) s
  else { s with pendingDecodes := s.pendingDecodes ++ [loop] }

/-- The continuation of `playCustom` after its awaited decode resolves:
on success cache the buffer and start a source bound to the call's `loop`
flag (lines 109-125); on failure the catch block falls back to the bell tone
(lines 126-130). -/
def decodeContinue (loop : Bool) (ok : Bool) (s : AudioState) : AudioState :=
  if ok then assignSource (SourceKind.buffer loop) { s with customAudioBuffer := true }
  else playBellSound s

/-- The bell branch of `playNotification` (lines 212-223): play the tone and,
when looping, arm the repeating interval. -/
def bellPath (loop : Bool) (s : AudioState) : AudioState :=
  if loop then { playBellSound s with loopInterval := some LoopKind.bellInterval }
  else playBellSound s

/-- `playNotification` (lines 170-224) up to its only modelled suspension:
stop any existing session, register the `onEnd` callback, arm the duration
ceiling when `audioDuration > 0`, then dispatch on the sound mode (custom
mode requires a truthy payload, else the bell branch runs). -/
def playNotification (st : AppSettings) (cb : Option Nat)
    (s0 : AudioState) : AudioState :=
  let s1 := stopFn s0
  let s2 := { s1 with onPlaybackEnd := cb }
  let s3 := if st.audioDuration > 0 then { s2 with stopTimeout := true } else s2
  match st.soundMode with
  | SoundMode.tts =>
    if st.audioLoop then speakText SpeechKind.chain s3
    else speakText SpeechKind.single s3
  | SoundMode.custom =>
    if strTruthy st.customSoundData then playCustom st.audioLoop s3
    else bellPath st.audioLoop s3
  | SoundMode.bell => bellPath st.audioLoop s3

/-- The events the service reacts to: its two public operations, cache
clearing, and the asynchronous completions the platform can deliver. -/
inductive AudioEvent where
  | play (st : AppSettings) (cb : Option Nat)
  | stopCall
  | durationFire
  | utteranceEnd
  | chainTimerFire
  | bellIntervalFire
  | decodeDone (i : Nat) (ok : Bool)
  | clearCache
deriving DecidableEq, Repr

/-- One event of the service.  Asynchronous completions are guarded by the
state that makes them deliverable (a timer only fires while pending, an
utterance only ends while speaking, a decode only resolves while in flight);
an undeliverable event is a no-op. -/
def audioStep (s : AudioState) : AudioEvent → AudioState
  | AudioEvent.play st cb => playNotification st cb s
  | AudioEvent.stopCall => stopFn s
  | AudioEvent.durationFire => if s.stopTimeout then stopFn s else s
  | AudioEvent.utteranceEnd =>
    match s.speaking with
    | some SpeechKind.chain =>
      -- the loop closure (lines 193-197): arm a 1-second timeout that will
      -- re-speak; note it does not speak again in this event
      { s with speaking := none, loopInterval := some LoopKind.ttsChainTimeout }
    | some SpeechKind.single =>
      -- the natural-end closure (lines 201-204): invoke the registered
      -- callback, WITHOUT clearing the registration
      { s with speaking := none,
               invoked := match s.onPlaybackEnd with
                          | some k => s.invoked ++ [k]
                          | none => s.invoked }
    | none => s
  | AudioEvent.chainTimerFire =>
    match s.loopInterval with
    | some LoopKind.ttsChainTimeout =>
      -- `speakLoop` runs again (line 196 firing, then lines 193-198)
      { s with loopInterval := none, speaking := some SpeechKind.chain }
    | _ => s
  | AudioEvent.bellIntervalFire =>
    match s.loopInterval with
    | some LoopKind.bellInterval => playBellSound s
    | _ => s
  | AudioEvent.decodeDone i ok =>
    match s.pendingDecodes.get? i with
    | some loop =>
      decodeContinue loop ok { s with pendingDecodes := s.pendingDecodes.eraseIdx i }
    | none => s
  | AudioEvent.clearCache => { s with customAudioBuffer := false }

/-- Run the service from its initial state through a list of events. -/
def runEvents (evs : List AudioEvent) : AudioState :=
  evs.foldl audioStep initAudioState

/-- A bell tone loop is in progress. -/
def toneLoopActive (s : AudioState) : Bool :=
  match s.loopInterval with
  | some LoopKind.bellInterval => true
  | _ => false

/-- A speech session (an in-flight utterance or a pending chained re-speak)
is in progress. -/
def speechActive (s : AudioState) : Bool :=
  s.speaking.isSome ||
    (match s.loopInterval with
     | some LoopKind.ttsChainTimeout => true
     | _ => false)

/-- A custom-audio buffer source is still referenced by `currentSource`. -/
def bufferActive (s : AudioState) : Bool :=
  match s.currentSource with
  | some (SourceKind.buffer _) => true
  | _ => false

/-- How many alert sessions (tone loop, speech chain, tracked buffer source,
and orphaned buffer sources still playing) are concurrently active. -/
def activeSessions (s : AudioState) : Nat :=
  (if toneLoopActive s then 1 else 0) + (if speechActive s then 1 else 0) +
    (if bufferActive s then 1 else 0) + s.orphaned

/-- A concrete tick instant: 2024-05-07 09:30 local time. -/
def sampleClock : Clock :=
  { year := 2024, month := 5, day := 7, hour := 9, minute := 30 }

/-- The tick one minute after `sampleClock`. -/
def sampleClockLater : Clock :=
  { year := 2024, month := 5, day := 7, hour := 9, minute := 31 }

/-- Default-like settings: bell mode, looping, 30-second cap. -/
def sampleSettings : AppSettings :=
  { autoComplete := false, soundMode := SoundMode.bell, audioDuration := 30,
    audioLoop := true, customSoundData := none }

/-- Same settings with `autoComplete` enabled. -/
def autoSettings : AppSettings :=
  { sampleSettings with autoComplete := true }

/-- Same settings with the duration cap disabled (`audioDuration = 0`). -/
def noCapSettings : AppSettings :=
  { sampleSettings with audioDuration := 0 }

/-- Speech mode without looping. -/
def ttsOnceSettings : AppSettings :=
  { autoComplete := false, soundMode := SoundMode.tts, audioDuration := 30,
    audioLoop := false, customSoundData := none }

/-- Speech mode with looping. -/
def ttsLoopSettings : AppSettings :=
  { ttsOnceSettings with audioLoop := true }

/-- Custom-sound mode with a stored payload. -/
def customSettings : AppSettings :=
  { autoComplete := false, soundMode := SoundMode.custom, audioDuration := 30,
    audioLoop := true, customSoundData := some "ZGF0YQ" }

/-- A task due exactly at `sampleClock`. -/
def sampleTask : Task :=
  { id := "t1", title := "meeting", time := "09:30", date := "2024-05-07",
    priority := Priority.medium, completed := false, notified := none,
    createdAt := 1 }

/-- The same task after its alert has fired. -/
def notifiedTask : Task :=
  { sampleTask with notified := some true }

/-- A task whose date field does not parse as `YYYY-MM-DD`. -/
def badDateTask : Task :=
  { sampleTask with date := "tomorrow" }

/-! ### Decimal rendering: shape and injectivity facts -/

theorem decList_base {n : Nat} (h : n < 10) : decList n = [Nat.digitChar n] := by
  rw [decList, if_pos h]

theorem decList_step {n : Nat} (h : 10 ≤ n) :
    decList n = decList (n / 10) ++ [Nat.digitChar (n % 10)] := by
  rw [decList, if_neg (by omega)]

theorem core_eq_decList :
    ∀ f n acc, n < f → decCharsCore f n acc = decList n ++ acc := by
  intro f
  induction f with
  | zero => intro n acc h; omega
  | succ f ih =>
    intro n acc h
    by_cases hn : n < 10
    · rw [decCharsCore, if_pos hn, decList_base hn]; rfl
    · rw [decCharsCore, if_neg hn, decList_step (by omega),
        ih (n / 10) _ (by omega), List.append_assoc]
      rfl

theorem natStr_data (n : Nat) : (natStr n).data = decList n := by
  rw [natStr, core_eq_decList (n + 1) n [] (by omega), List.append_nil]

theorem digitChar_isDigit {d : Nat} (h : d < 10) :
    (Nat.digitChar d).isDigit = true := by
  interval_cases d <;> decide

theorem digitChar_inj {a b : Nat} (ha : a < 10) (hb : b < 10)
    (h : Nat.digitChar a = Nat.digitChar b) : a = b := by
  interval_cases a <;> interval_cases b <;> revert h <;> decide

theorem decList_all_digits (n : Nat) : (decList n).all Char.isDigit = true := by
  induction n using Nat.strong_induction_on with
  | _ n ih =>
    by_cases h : n < 10
    · rw [decList_base h]
      simp [digitChar_isDigit h]
    · rw [decList_step (by omega), List.all_append]
      have h1 := ih (n / 10) (Nat.div_lt_self (by omega) (by omega))
      have h2 : (n % 10) < 10 := by omega
      simp [h1, digitChar_isDigit h2]

theorem decList_len1 {n : Nat} (h : n < 10) : (decList n).length = 1 := by
  rw [decList_base h]; rfl

theorem decList_len2 {n : Nat} (h1 : 10 ≤ n) (h2 : n < 100) :
    (decList n).length = 2 := by
  rw [decList_step h1, List.length_append, decList_len1 (by omega)]
  rfl

theorem decList_len4 {n : Nat} (h1 : 1000 ≤ n) (h2 : n ≤ 9999) :
    (decList n).length = 4 := by
  rw [decList_step (by omega), List.length_append,
    decList_step (show 10 ≤ n / 10 by omega), List.length_append,
    decList_len2 (show 10 ≤ n / 10 / 10 by omega) (show n / 10 / 10 < 100 by omega)]
  rfl

theorem pad2_data_lt {n : Nat} (h : n < 10) :
    (pad2 n).data = '0' :: decList n := by
  rw [pad2, if_pos h]
  show ('0' :: (natStr n).data) = _
  rw [natStr_data]

theorem pad2_data_ge {n : Nat} (h : 10 ≤ n) : (pad2 n).data = decList n := by
  rw [pad2, if_neg (by omega), natStr_data]

theorem pad2_len {n : Nat} (h : n < 100) : (pad2 n).data.length = 2 := by
  by_cases hn : n < 10
  · rw [pad2_data_lt hn]; simp [decList_len1 hn]
  · rw [pad2_data_ge (by omega)]; exact decList_len2 (by omega) h

theorem pad2_all_digits (n : Nat) : (pad2 n).data.all Char.isDigit = true := by
  by_cases hn : n < 10
  · rw [pad2_data_lt hn]
    simp only [List.all_cons, Bool.and_eq_true]
    exact ⟨by decide, decList_all_digits n⟩
  · rw [pad2_data_ge (by omega)]; exact decList_all_digits n

theorem digitChar_ne_zero {d : Nat} (h1 : 1 ≤ d) (h2 : d ≤ 9) :
    Nat.digitChar d ≠ '0' := by
  interval_cases d <;> decide

theorem pad2_inj {a b : Nat} (ha : a < 100) (hb : b < 100)
    (h : pad2 a = pad2 b) : a = b := by
  have hdata : (pad2 a).data = (pad2 b).data := by rw [h]
  by_cases h1 : a < 10 <;> by_cases h2 : b < 10
  · rw [pad2_data_lt h1, pad2_data_lt h2, decList_base h1, decList_base h2] at hdata
    simp only [List.cons.injEq] at hdata
    exact digitChar_inj h1 h2 hdata.2.1
  · -- a single digit, b two digits: first char of b's rendering is nonzero
    rw [pad2_data_lt h1, decList_base h1, pad2_data_ge (by omega),
      decList_step (by omega), decList_base (show b / 10 < 10 by omega)] at hdata
    simp only [List.cons_append, List.nil_append, List.cons.injEq] at hdata
    exact absurd hdata.1.symm (digitChar_ne_zero (by omega) (by omega))
  · rw [pad2_data_lt h2, decList_base h2, pad2_data_ge (by omega),
      decList_step (by omega), decList_base (show a / 10 < 10 by omega)] at hdata
    simp only [List.cons_append, List.nil_append, List.cons.injEq] at hdata
    exact absurd hdata.1 (digitChar_ne_zero (by omega) (by omega))
  · rw [pad2_data_ge (by omega), pad2_data_ge (by omega),
      decList_step (show 10 ≤ a by omega), decList_step (show 10 ≤ b by omega),
      decList_base (show a / 10 < 10 by omega),
      decList_base (show b / 10 < 10 by omega)] at hdata
    simp only [List.cons_append, List.nil_append, List.cons.injEq] at hdata
    have e1 := digitChar_inj (show a / 10 < 10 by omega) (show b / 10 < 10 by omega)
      hdata.1
    have e2 := digitChar_inj (show a % 10 < 10 by omega) (show b % 10 < 10 by omega)
      hdata.2.1
    omega

theorem data_append (s t : String) : (s ++ t).data = s.data ++ t.data := rfl

theorem string_ext {s t : String} (h : s.data = t.data) : s = t := by
  cases s; cases t; exact congrArg String.mk h

theorem exists_len2 {l : List Char} (h : l.length = 2) : ∃ a b, l = [a, b] := by
  cases l with
  | nil => simp at h
  | cons a t =>
    cases t with
    | nil => simp at h
    | cons b t2 =>
      cases t2 with
      | nil => exact ⟨a, b, rfl⟩
      | cons x t3 => simp at h

theorem exists_len4 {l : List Char} (h : l.length = 4) :
    ∃ a b c d, l = [a, b, c, d] := by
  cases l with
  | nil => simp at h
  | cons a t =>
    have ht : t.length = 3 := by simpa using h
    cases t with
    | nil => simp at ht
    | cons b t2 =>
      have ht2 : t2.length = 2 := by simpa using ht
      obtain ⟨c, d, rfl⟩ := exists_len2 ht2
      exact ⟨a, b, c, d, rfl⟩

theorem all_digits_pair {a b : Char} (h : ([a, b]).all Char.isDigit = true) :
    a.isDigit = true ∧ b.isDigit = true := by
  simp only [List.all_cons, List.all_nil, Bool.and_eq_true, Bool.and_true] at h
  exact h

theorem currentTimeStr_data (c : Clock) :
    (currentTimeStr c).data = (pad2 c.hour).data ++ ':' :: (pad2 c.minute).data := by
  rw [currentTimeStr, data_append, data_append]
  simp

theorem currentDateStr_data (c : Clock) :
    (currentDateStr c).data =
      decList c.year ++ '-' :: ((pad2 c.month).data ++ '-' :: (pad2 c.day).data) := by
  rw [currentDateStr, data_append, data_append, data_append, data_append, natStr_data]
  simp

theorem currentDateStr_shape {c : Clock} (hc : ValidClock c) :
    isDateShape (currentDateStr c) = true := by
  obtain ⟨hy1, hy2, hm1, hm2, hd1, hd2, hh, hmin⟩ := hc
  have hylen : (decList c.year).length = 4 := decList_len4 hy1 hy2
  obtain ⟨a, b, d, e, hy⟩ := exists_len4 hylen
  have hydig : (decList c.year).all Char.isDigit = true := decList_all_digits c.year
  obtain ⟨f, g, hmo⟩ := exists_len2 (pad2_len (show c.month < 100 by omega))
  obtain ⟨i, j, hda⟩ := exists_len2 (pad2_len (show c.day < 100 by omega))
  have hmodig := pad2_all_digits c.month
  have hdadig := pad2_all_digits c.day
  rw [hmo] at hmodig
  rw [hda] at hdadig
  obtain ⟨hf, hg⟩ := all_digits_pair hmodig
  obtain ⟨hi, hj⟩ := all_digits_pair hdadig
  rw [hy] at hydig
  simp only [List.all_cons, List.all_nil, Bool.and_eq_true, Bool.and_true] at hydig
  obtain ⟨ha, hb, hd', he⟩ := hydig
  have hdata := currentDateStr_data c
  rw [hy, hmo, hda] at hdata
  rw [isDateShape, hdata]
  simp [ha, hb, hd', he, hf, hg, hi, hj]

theorem currentTimeStr_shape {c : Clock} (hc : ValidClock c) :
    isTimeShape (currentTimeStr c) = true := by
  obtain ⟨_, _, _, _, _, _, hh, hmin⟩ := hc
  obtain ⟨a, b, hht⟩ := exists_len2 (pad2_len (show c.hour < 100 by omega))
  obtain ⟨d, e, hmt⟩ := exists_len2 (pad2_len (show c.minute < 100 by omega))
  have hhd := pad2_all_digits c.hour
  have hmd := pad2_all_digits c.minute
  rw [hht] at hhd
  rw [hmt] at hmd
  obtain ⟨ha, hb⟩ := all_digits_pair hhd
  obtain ⟨hd', he⟩ := all_digits_pair hmd
  have hdata := currentTimeStr_data c
  rw [hht, hmt] at hdata
  rw [isTimeShape, hdata]
  simp [ha, hb, hd', he]

/-- Two valid clock instants with different minute-of-hour always format to
different `HH:mm` strings (the two characters after the colon differ). -/
theorem currentTimeStr_minute_inj {c c' : Clock}
    (hc : ValidClock c) (hc' : ValidClock c')
    (h : currentTimeStr c = currentTimeStr c') : c.minute = c'.minute := by
  obtain ⟨_, _, _, _, _, _, hh, hmin⟩ := hc
  obtain ⟨_, _, _, _, _, _, hh', hmin'⟩ := hc'
  have hdata : (currentTimeStr c).data = (currentTimeStr c').data := by rw [h]
  rw [currentTimeStr_data, currentTimeStr_data] at hdata
  have hlen : (pad2 c.hour).data.length = (pad2 c'.hour).data.length := by
    rw [pad2_len (show c.hour < 100 by omega), pad2_len (show c'.hour < 100 by omega)]
  obtain ⟨-, htail⟩ := List.append_inj hdata hlen
  have hmeq : (pad2 c.minute).data = (pad2 c'.minute).data := by
    simpa using htail
  exact pad2_inj (show c.minute < 100 by omega) (show c'.minute < 100 by omega)
    (string_ext hmeq)

/-! ### Scanner lemmas -/

theorem dueMatch_elim {t : Task} {c : Clock} (h : dueMatch t c = true) :
    t.completed = false ∧ t.notified.getD false = false ∧
      t.date = currentDateStr c ∧ t.time = currentTimeStr c := by
  simp only [dueMatch, Bool.and_eq_true, Bool.not_eq_true', beq_iff_eq] at h
  exact ⟨h.1.1.1, h.1.1.2, h.1.2, h.2⟩

theorem dueMatch_of_notified {t : Task} {c : Clock}
    (h : t.notified = some true) : dueMatch t c = false := by
  simp [dueMatch, h]

theorem tickTask_of_no_match {s : AppSettings} {c : Clock} {t : Task}
    (h : dueMatch t c = false) : tickTask s c t = t := by
  rw [tickTask, h]
  rfl

theorem tickTask_notified {s : AppSettings} {c : Clock} {t : Task}
    (h : dueMatch t c = true) : (tickTask s c t).notified = some true := by
  rw [tickTask, h]
  rfl

theorem runTicksCount_of_notified {s : AppSettings} {t : Task}
    (h : t.notified = some true) :
    ∀ cs, runTicksCount s t cs = (t, 0) := by
  intro cs
  induction cs with
  | nil => rfl
  | cons c cs ih =>
    rw [runTicksCount]
    simp only [dueMatch_of_notified h,
      tickTask_of_no_match (dueMatch_of_notified h), ih]
    rfl

theorem runTicksCount_le_one (s : AppSettings) (t : Task) (cs : List Clock) :
    (runTicksCount s t cs).2 ≤ 1 := by
  induction cs generalizing t with
  | nil => exact Nat.zero_le 1
  | cons c cs ih =>
    rw [runTicksCount]
    by_cases h : dueMatch t c = true
    · have hn : (tickTask s c t).notified = some true := tickTask_notified h
      rw [h, runTicksCount_of_notified hn cs]
      simp
    · simp only [Bool.not_eq_true] at h
      rw [h]
      simpa using ih (tickTask s c t)

/-! ### Audio service lemmas -/

theorem activeSessions_stopFn (s : AudioState) :
    activeSessions (stopFn s) = s.orphaned := by
  simp [activeSessions, toneLoopActive, speechActive, bufferActive, stopFn]

theorem orphaned_le_activeSessions (s : AudioState) :
    s.orphaned ≤ activeSessions s := by
  simp only [activeSessions]
  exact Nat.le_add_left _ _

theorem play_stopTimeout (st : AppSettings) (cb : Option Nat) (s : AudioState) :
    (playNotification st cb s).stopTimeout =
      (if 0 < st.audioDuration then true else false) := by
  obtain ⟨ac, sm, dur, lp, csd⟩ := st
  cases sm <;> cases lp <;>
    simp [playNotification, playCustom, bellPath, playBellSound, assignSource,
      speakText, stopFn] <;>
    split_ifs <;> simp_all

theorem scanTick_eq_map {s : AppSettings} {c : Clock} {tasks : List Task}
    (h : tasks.any (fun t => dueMatch t c) = true) :
    scanTick s c tasks = tasks.map (tickTask s c) := by
  simp only [scanTick, h, if_true]

theorem scanTick_eq_self {s : AppSettings} {c : Clock} {tasks : List Task}
    (h : tasks.any (fun t => dueMatch t c) = false) :
    scanTick s c tasks = tasks := by
  simp only [scanTick, h]
  rfl

theorem scanTick_length (s : AppSettings) (c : Clock) (tasks : List Task) :
    (scanTick s c tasks).length = tasks.length := by
  cases h : tasks.any (fun t => dueMatch t c)
  · rw [scanTick_eq_self h]
  · rw [scanTick_eq_map h, List.length_map]

theorem tickTask_fields (s : AppSettings) (c : Clock) (t : Task) :
    (tickTask s c t).id = t.id ∧ (tickTask s c t).title = t.title ∧
    (tickTask s c t).time = t.time ∧ (tickTask s c t).date = t.date ∧
    (tickTask s c t).priority = t.priority ∧
    (tickTask s c t).createdAt = t.createdAt := by
  rw [tickTask]
  split <;> exact ⟨rfl, rfl, rfl, rfl, rfl, rfl⟩

theorem scanTick_get (s : AppSettings) (c : Clock) (tasks : List Task)
    (i : Nat) (h : i < tasks.length) (h' : i < (scanTick s c tasks).length) :
    (scanTick s c tasks).get ⟨i, h'⟩ = tickTask s c (tasks.get ⟨i, h⟩) ∨
    (scanTick s c tasks).get ⟨i, h'⟩ = tasks.get ⟨i, h⟩ := by
  cases hany : tasks.any (fun t => dueMatch t c)
  · right
    have he := scanTick_eq_self (s := s) hany
    simp only [List.get_eq_getElem]
    simp only [he]
  · left
    have he := scanTick_eq_map (s := s) hany
    simp only [List.get_eq_getElem]
    simp only [he, List.getElem_map]

/-! ### The claims -/

/-- Claim C1: for every task, across any number of scan ticks, the alert
fires at most once; a tick triggers the alert and sets `notified = true` only
when the task has `completed = false` and `notified` not true, and once
`notified = true` the task is never matched again on any later tick until it
is edited (the scanner itself never resets the flag). -/
theorem alert_fires_at_most_once (s : AppSettings) (t : Task) (cs : List Clock) :
    (runTicksCount s t cs).2 ≤ 1 ∧
    (∀ c, dueMatch t c = true →
      t.completed = false ∧ t.notified.getD false = false ∧
        (tickTask s c t).notified = some true) ∧
    (∀ c, t.notified = some true →
      dueMatch t c = false ∧ tickTask s c t = t) :=
  ⟨runTicksCount_le_one s t cs,
   fun _ h => ⟨(dueMatch_elim h).1, (dueMatch_elim h).2.1, tickTask_notified h⟩,
   fun _ h => ⟨dueMatch_of_notified h,
     tickTask_of_no_match (dueMatch_of_notified h)⟩⟩

/-- Witness for C1 at a concrete task and tick sequence: the due tick fires,
a repeated tick does not, and a notified task never matches. -/
theorem alert_fires_at_most_once_witness :
    (runTicksCount sampleSettings sampleTask [sampleClock, sampleClock]).2 ≤ 1 ∧
    (tickTask sampleSettings sampleClock sampleTask).notified = some true ∧
    dueMatch notifiedTask sampleClock = false := by
  have h := alert_fires_at_most_once sampleSettings sampleTask
    [sampleClock, sampleClock]
  have h2 := alert_fires_at_most_once sampleSettings notifiedTask []
  exact ⟨h.1, (h.2.1 sampleClock (by decide)).2.2,
    (h2.2.2 sampleClock (by decide)).1⟩

/-- Claim C2 exhibit (code bug): in tts mode without looping, the natural-end
closure invokes the registered callback without clearing the registration
(src/services/audioService.ts lines 201-204), so a later `stop()` invokes the
same session's `onEnd` a second time: callback 1 is invoked twice. -/
theorem onEnd_invoked_twice_after_natural_end :
    (runEvents [AudioEvent.play ttsOnceSettings (some 1),
      AudioEvent.utteranceEnd, AudioEvent.stopCall]).invoked = [1, 1] := by
  decide

/-- Claim C3: a task becomes due only on a tick whose formatted date and
minute-truncated time equal the task's fields, and a tick whose minute-of-hour
is one later or one earlier (modulo the hour) never matches it. -/
theorem due_match_exact_minute (t : Task) (c c' : Clock)
    (hc : ValidClock c) (hc' : ValidClock c')
    (hm : dueMatch t c = true) :
    t.date = currentDateStr c ∧ t.time = currentTimeStr c ∧
    (c'.minute = (c.minute + 1) % 60 ∨ c.minute = (c'.minute + 1) % 60 →
      dueMatch t c' = false) := by
  obtain ⟨hcomp, hnot, hdate, htime⟩ := dueMatch_elim hm
  refine ⟨hdate, htime, fun hshift => ?_⟩
  cases hb : dueMatch t c'
  · rfl
  · exfalso
    obtain ⟨-, -, -, htime'⟩ := dueMatch_elim hb
    have heq : currentTimeStr c = currentTimeStr c' := by rw [← htime, htime']
    have hmin := currentTimeStr_minute_inj hc hc' heq
    have h1 : c.minute ≤ 59 := hc.2.2.2.2.2.2.2
    have h2 : c'.minute ≤ 59 := hc'.2.2.2.2.2.2.2
    rcases hshift with h | h <;> omega

/-- Witness for C3: the sample task matches 09:30 and not 09:31. -/
theorem due_match_exact_minute_witness :
    sampleTask.date = currentDateStr sampleClock ∧
    sampleTask.time = currentTimeStr sampleClock ∧
    dueMatch sampleTask sampleClockLater = false := by
  have h := due_match_exact_minute sampleTask sampleClock sampleClockLater
    (by decide) (by decide) (by decide)
  exact ⟨h.1, h.2.1, h.2.2 (Or.inl (by decide))⟩

/-- Claim C5: with `audioDuration > 0` the start call arms the one-shot
ceiling timer; with `audioDuration ≤ 0` it does not; and when the armed timer
fires it performs exactly `stop()`, which silences every session the service
still tracks (tone loop, speech, current source) — only sources already
orphaned by a decode overlap are beyond its reach. -/
theorem duration_ceiling (st : AppSettings) (cb : Option Nat)
    (s : AudioState) :
    ((0 : Int) < st.audioDuration →
      (playNotification st cb s).stopTimeout = true) ∧
    (st.audioDuration ≤ 0 →
      (playNotification st cb s).stopTimeout = false) ∧
    (∀ s' : AudioState, s'.stopTimeout = true →
      audioStep s' AudioEvent.durationFire = stopFn s' ∧
        toneLoopActive (stopFn s') = false ∧
        speechActive (stopFn s') = false ∧
        bufferActive (stopFn s') = false ∧
        activeSessions (stopFn s') = s'.orphaned) := by
  refine ⟨fun h => ?_, fun h => ?_,
    fun s' h => ⟨by simp [audioStep, h], rfl, rfl, rfl,
      activeSessions_stopFn s'⟩⟩
  · rw [play_stopTimeout, if_pos h]
  · rw [play_stopTimeout, if_neg (by omega)]

/-- Witness for C5 at concrete settings: the 30-second cap arms the timer,
the disabled cap does not, and firing the armed timer is a `stop()`. -/
theorem duration_ceiling_witness :
    (playNotification sampleSettings (some 1) initAudioState).stopTimeout =
      true ∧
    (playNotification noCapSettings (some 1) initAudioState).stopTimeout =
      false ∧
    audioStep (playNotification sampleSettings (some 1) initAudioState)
        AudioEvent.durationFire =
      stopFn (playNotification sampleSettings (some 1) initAudioState) := by
  have h1 := duration_ceiling sampleSettings (some 1) initAudioState
  have h2 := duration_ceiling noCapSettings (some 1) initAudioState
  exact ⟨h1.1 (by decide), h2.2.1 (by decide),
    (h1.2.2 _ (h1.1 (by decide))).1⟩

/-- Claim C6: in custom mode with a truthy stored payload and an empty decode
cache, the start call launches the decode, and the decode failing still
leaves an audible bell-tone session (the catch block installs the oscillator,
src/services/audioService.ts lines 126-130); the failure is absorbed inside
`playCustom`, not raised to the caller. -/
theorem custom_decode_fallback (st : AppSettings) (cb : Option Nat)
    (s : AudioState) (hmode : st.soundMode = SoundMode.custom)
    (hdata : strTruthy st.customSoundData = true)
    (hcache : s.customAudioBuffer = false)
    (hpend : s.pendingDecodes = []) :
    (playNotification st cb s).pendingDecodes = [st.audioLoop] ∧
    (audioStep (playNotification st cb s)
        (AudioEvent.decodeDone 0 false)).currentSource =
      some SourceKind.osc := by
  obtain ⟨ac, sm, dur, lp, csd⟩ := st
  simp only at hmode hdata
  subst hmode
  have hp : (playNotification ⟨ac, SoundMode.custom, dur, lp, csd⟩
      cb s).pendingDecodes = [lp] := by
    simp only [playNotification, hdata, if_true, playCustom]
    split_ifs <;> simp_all [stopFn]
  refine ⟨hp, ?_⟩
  simp only [audioStep, hp]
  simp [decodeContinue, playBellSound, assignSource]

/-- Witness for C6: concrete custom settings launch one decode whose failure
produces the oscillator fallback. -/
theorem custom_decode_fallback_witness :
    (playNotification customSettings (some 2) initAudioState).pendingDecodes =
      [true] ∧
    (audioStep (playNotification customSettings (some 2) initAudioState)
        (AudioEvent.decodeDone 0 false)).currentSource =
      some SourceKind.osc :=
  custom_decode_fallback customSettings (some 2) initAudioState (by decide)
    (by decide) (by decide) (by decide)

/-- Claim C7 counterexample: in tts loop mode, right after an utterance
completes nothing is being spoken — the chain closure only arms a one-second
timeout (src/services/audioService.ts line 196); the phrase is not re-spoken
immediately upon utterance completion as the claim states. -/
theorem tts_loop_not_immediate :
    (runEvents [AudioEvent.play ttsLoopSettings (some 1),
      AudioEvent.utteranceEnd]).speaking = none ∧
    (runEvents [AudioEvent.play ttsLoopSettings (some 1),
      AudioEvent.utteranceEnd]).loopInterval = some LoopKind.ttsChainTimeout := by
  decide

/-- Claim C7 (amended): in tts mode with `audioLoop = true` the phrase is
re-spoken after each utterance completes via a one-second one-shot timeout
armed by the utterance's completion callback — a chain triggered by utterance
completion, not a fixed interval — until stopped; with `audioLoop = false`,
the registered `onEnd` is invoked when the single utterance completes
naturally. -/
theorem tts_loop_chain :
    (∀ (st : AppSettings) (cb : Option Nat) (s : AudioState),
      st.soundMode = SoundMode.tts → st.audioLoop = true →
        (playNotification st cb s).speaking = some SpeechKind.chain) ∧
    (∀ s : AudioState, s.speaking = some SpeechKind.chain →
      (audioStep s AudioEvent.utteranceEnd).speaking = none ∧
      (audioStep s AudioEvent.utteranceEnd).loopInterval =
        some LoopKind.ttsChainTimeout ∧
      (audioStep s AudioEvent.utteranceEnd).invoked = s.invoked) ∧
    (∀ s : AudioState, s.loopInterval = some LoopKind.ttsChainTimeout →
      (audioStep s AudioEvent.chainTimerFire).speaking = some SpeechKind.chain ∧
      (audioStep s AudioEvent.chainTimerFire).loopInterval = none) ∧
    (∀ (st : AppSettings) (cb : Option Nat) (s : AudioState),
      st.soundMode = SoundMode.tts → st.audioLoop = false →
        (playNotification st cb s).speaking = some SpeechKind.single ∧
        (playNotification st cb s).onPlaybackEnd = cb) ∧
    (∀ (s : AudioState) (k : Nat), s.speaking = some SpeechKind.single →
      s.onPlaybackEnd = some k →
        (audioStep s AudioEvent.utteranceEnd).invoked = s.invoked ++ [k]) ∧
    (∀ s : AudioState, (stopFn s).speaking = none ∧
      (stopFn s).loopInterval = none) := by
  refine ⟨?_, ?_, ?_, ?_, ?_, fun s => ⟨rfl, rfl⟩⟩
  · intro st cb s hmode hloop
    obtain ⟨ac, sm, dur, lp, csd⟩ := st
    simp only at hmode hloop
    subst hmode
    subst hloop
    simp [playNotification, speakText] <;> split_ifs <;> rfl
  · intro s h
    simp [audioStep, h]
  · intro s h
    simp [audioStep, h]
  · intro st cb s hmode hloop
    obtain ⟨ac, sm, dur, lp, csd⟩ := st
    simp only at hmode hloop
    subst hmode
    subst hloop
    constructor <;> simp [playNotification, speakText] <;> split_ifs <;> rfl
  · intro s k hspk hope
    simp [audioStep, hspk, hope]

/-- Witness for C7 (amended) at concrete states: the chain arms and re-speaks
through the timer, and a single utterance's natural end invokes callback 1. -/
theorem tts_loop_chain_witness :
    (playNotification ttsLoopSettings (some 1) initAudioState).speaking =
      some SpeechKind.chain ∧
    (audioStep (runEvents [AudioEvent.play ttsLoopSettings (some 1),
        AudioEvent.utteranceEnd]) AudioEvent.chainTimerFire).speaking =
      some SpeechKind.chain ∧
    (audioStep (playNotification ttsOnceSettings (some 1) initAudioState)
        AudioEvent.utteranceEnd).invoked = [1] := by
  refine ⟨tts_loop_chain.1 ttsLoopSettings (some 1) initAudioState rfl rfl,
    (tts_loop_chain.2.2.1 _ (by decide)).1, ?_⟩
  have h := tts_loop_chain.2.2.2.2.1
    (playNotification ttsOnceSettings (some 1) initAudioState) 1
    (by decide) (by decide)
  exact h.trans (by decide)

/-- Claim C8: a task whose date or time field fails the `YYYY-MM-DD` /
`HH:mm` parse is never matched by a tick at any valid clock instant and is
left completely unchanged; the scan is a total function, so the tick always
runs to completion (the source compares strings and never parses task
fields, so nothing can throw). -/
theorem malformed_task_skipped (s : AppSettings) (c : Clock) (t : Task)
    (hc : ValidClock c)
    (hbad : isDateShape t.date = false ∨ isTimeShape t.time = false) :
    dueMatch t c = false ∧ tickTask s c t = t := by
  have hdm : dueMatch t c = false := by
    cases hb : dueMatch t c
    · rfl
    · exfalso
      obtain ⟨-, -, hdate, htime⟩ := dueMatch_elim hb
      cases hbad with
      | inl hd =>
        rw [hdate, currentDateStr_shape hc] at hd
        exact Bool.noConfusion hd
      | inr ht =>
        rw [htime, currentTimeStr_shape hc] at ht
        exact Bool.noConfusion ht
  exact ⟨hdm, tickTask_of_no_match hdm⟩

/-- Witness for C8: the task with date "tomorrow" is skipped untouched at the
sample tick. -/
theorem malformed_task_skipped_witness :
    dueMatch badDateTask sampleClock = false ∧
    tickTask sampleSettings sampleClock badDateTask = badDateTask :=
  malformed_task_skipped sampleSettings sampleClock badDateTask (by decide)
    (Or.inl (by decide))

/-- Claim C9: a tick that matches a task sets `notified = true` on it within
the single collection update produced by the tick, together with
`completed = true` exactly when `autoComplete` is set; with `autoComplete`
unset the task's `completed` is unchanged. -/
theorem auto_complete_same_update (s : AppSettings) (c : Clock)
    (tasks : List Task) (i : Nat) (h : i < tasks.length)
    (hm : dueMatch (tasks.get ⟨i, h⟩) c = true) :
    ∃ h' : i < (scanTick s c tasks).length,
      ((scanTick s c tasks).get ⟨i, h'⟩).notified = some true ∧
      (s.autoComplete = true →
        ((scanTick s c tasks).get ⟨i, h'⟩).completed = true) ∧
      (s.autoComplete = false →
        ((scanTick s c tasks).get ⟨i, h'⟩).completed =
          (tasks.get ⟨i, h⟩).completed) := by
  have hmem : tasks.get ⟨i, h⟩ ∈ tasks := tasks.get_mem i h
  have hany : tasks.any (fun t => dueMatch t c) = true :=
    List.any_eq_true.mpr ⟨_, hmem, hm⟩
  have hlen : i < (scanTick s c tasks).length := by
    rw [scanTick_length]; exact h
  refine ⟨hlen, ?_⟩
  have hget : (scanTick s c tasks).get ⟨i, hlen⟩ =
      tickTask s c (tasks.get ⟨i, h⟩) := by
    have he := scanTick_eq_map (s := s) hany
    simp only [List.get_eq_getElem]
    simp only [he, List.getElem_map]
  rw [hget]
  simp only [tickTask, hm, if_true]
  refine ⟨?_, fun ha => ?_, fun ha => ?_⟩
  · simp
  · simp [ha]
  · simp [ha]

/-- Witness for C9: the sample task at its due tick, under both settings. -/
theorem auto_complete_same_update_witness :
    ((scanTick autoSettings sampleClock [sampleTask]).get
      ⟨0, by decide⟩).completed = true ∧
    ((scanTick sampleSettings sampleClock [sampleTask]).get
      ⟨0, by decide⟩).completed = false ∧
    ((scanTick sampleSettings sampleClock [sampleTask]).get
      ⟨0, by decide⟩).notified = some true := by
  obtain ⟨h1, hn1, hc1, -⟩ := auto_complete_same_update autoSettings sampleClock
    [sampleTask] 0 (by decide) (by decide)
  obtain ⟨h2, hn2, -, hc2⟩ := auto_complete_same_update sampleSettings
    sampleClock [sampleTask] 0 (by decide) (by decide)
  exact ⟨hc1 rfl, (hc2 rfl).trans rfl, hn2⟩

/-- Claim C10: a tick matching no task returns the collection itself
unchanged; a matching tick preserves length and order and rewrites only the
`notified`/`completed` fields of matched tasks — every other field of every
task is preserved, and unmatched tasks are returned identically. -/
theorem tick_frame (s : AppSettings) (c : Clock) (tasks : List Task) :
    ((∀ t ∈ tasks, dueMatch t c = false) → scanTick s c tasks = tasks) ∧
    (scanTick s c tasks).length = tasks.length ∧
    (∀ (i : Nat) (h : i < tasks.length) (h' : i < (scanTick s c tasks).length),
      ((scanTick s c tasks).get ⟨i, h'⟩).id = (tasks.get ⟨i, h⟩).id ∧
      ((scanTick s c tasks).get ⟨i, h'⟩).title = (tasks.get ⟨i, h⟩).title ∧
      ((scanTick s c tasks).get ⟨i, h'⟩).time = (tasks.get ⟨i, h⟩).time ∧
      ((scanTick s c tasks).get ⟨i, h'⟩).date = (tasks.get ⟨i, h⟩).date ∧
      ((scanTick s c tasks).get ⟨i, h'⟩).priority = (tasks.get ⟨i, h⟩).priority ∧
      ((scanTick s c tasks).get ⟨i, h'⟩).createdAt =
        (tasks.get ⟨i, h⟩).createdAt ∧
      (dueMatch (tasks.get ⟨i, h⟩) c = false →
        (scanTick s c tasks).get ⟨i, h'⟩ = tasks.get ⟨i, h⟩)) := by
  refine ⟨fun hnone => ?_, scanTick_length s c tasks, fun i h h' => ?_⟩
  · have hany : tasks.any (fun t => dueMatch t c) = false := by
      cases hb : tasks.any (fun t => dueMatch t c)
      · rfl
      · obtain ⟨x, hx, hpx⟩ := List.any_eq_true.mp hb
        rw [hnone x hx] at hpx
        exact absurd hpx (by simp)
    exact scanTick_eq_self hany
  · cases scanTick_get s c tasks i h h' with
    | inl he =>
      rw [he]
      obtain ⟨f1, f2, f3, f4, f5, f6⟩ := tickTask_fields s c (tasks.get ⟨i, h⟩)
      exact ⟨f1, f2, f3, f4, f5, f6, fun hnm => tickTask_of_no_match hnm⟩
    | inr he =>
      rw [he]
      exact ⟨rfl, rfl, rfl, rfl, rfl, rfl, fun _ => rfl⟩

/-- Witness for C10: a tick at 09:31 matches nothing in the sample list and
returns it unchanged; the matching tick at 09:30 only flips the flags. -/
theorem tick_frame_witness :
    scanTick sampleSettings sampleClockLater [sampleTask] = [sampleTask] ∧
    ((scanTick sampleSettings sampleClock [sampleTask]).get
      ⟨0, by decide⟩).title = sampleTask.title := by
  have h1 := tick_frame sampleSettings sampleClockLater [sampleTask]
  have h2 := tick_frame sampleSettings sampleClock [sampleTask]
  refine ⟨h1.1 ?_, ?_⟩
  · intro t ht
    rw [List.mem_singleton] at ht
    subst ht
    decide
  · exact (h2.2.2 0 (by decide) (by decide)).2.1

end Windo
